import Mathlib

/-!
Verification of the AMBER nmropt restraint model of this repository
(`CDI/amberio/rstr.py` and the older `CDI/amberio/AmberRestraint.py`).

The shallow embedding uses exact rational arithmetic (`ℚ`) for the float
computations of the source.  `mathPi` below is the exact rational value of
the IEEE-754 double `math.pi` used by the Python code.

Namespace `Rstr` embeds `rstr.py`; namespace `ARP` embeds
`AmberRestraint.py`.
-/

/-- The four restraint kinds of the source (`BondRestraint`, `AngleRestraint`,
`TorsionRestraint`, `GenDistCoordRestraint` in `rstr.py`; the `rstType`
strings of `AmberRestraint.py`). -/
inductive RstrKind where
  | bond
  | angle
  | torsion
  | genDistCoord
  deriving DecidableEq, Repr

/-- Exact rational value of the IEEE-754 double `math.pi`
(7074237752028440 / 2^51). -/
def mathPi : ℚ := 884279719003555 / 281474976710656

/-- Idealized value of the float constant `180./pi` used as
`_report_conversion` for angles and torsions in `rstr.py`. -/
def degPerRad : ℚ := 180 / mathPi

/-- Idealized value of the float constant `pi/180.` used for unit conversion
in `AmberRestraint.py`. -/
def radPerDeg : ℚ := mathPi / 180

namespace Rstr

/-- State of an `NmroptRestraint` object of `rstr.py`: the kind (concrete
subclass), the atom tuple `iat`, the `rstwt` weights (empty except for
`GenDistCoordRestraint`), the four stored positions `_r` and the two force
constants `_rk`. -/
structure NmroptRestraint where
  kind : RstrKind
  iat : List ℤ
  rstwt : List ℚ
  r1 : ℚ
  r2 : ℚ
  r3 : ℚ
  r4 : ℚ
  rk2 : ℚ
  rk3 : ℚ
  deriving DecidableEq, Repr

/-- `_report_conversion` per concrete subclass of `rstr.py`. -/
def reportConversion : RstrKind → ℚ
  | RstrKind.bond => 1
  | RstrKind.angle => degPerRad
  | RstrKind.torsion => degPerRad
  | RstrKind.genDistCoord => 1

/-- `_harmonic_r1` of the `rstr.py` subclasses, evaluated at the value of
`self._r[1]` (already set to `r0`, before the report conversion). -/
def harmonicR1 : RstrKind → ℚ → ℚ
  | RstrKind.bond, r0 => r0 - 500
  | RstrKind.angle, _ => 0
  | RstrKind.torsion, r0 => r0 - 180
  | RstrKind.genDistCoord, r0 => r0 - 500

/-- `_harmonic_r4` of the `rstr.py` subclasses. -/
def harmonicR4 : RstrKind → ℚ → ℚ
  | RstrKind.bond, r0 => r0 + 500
  | RstrKind.angle, _ => 180
  | RstrKind.torsion, r0 => r0 + 180
  | RstrKind.genDistCoord, r0 => r0 + 500

/-- The keyword arguments `r0, r1, r2, r3, r4, k0, rk2, rk3` that
`SetRestraintParameters` reads (each optional). -/
structure SetParams where
  r0 : Option ℚ := none
  p1 : Option ℚ := none
  p2 : Option ℚ := none
  p3 : Option ℚ := none
  p4 : Option ℚ := none
  k0 : Option ℚ := none
  rk2 : Option ℚ := none
  rk3 : Option ℚ := none
  deriving DecidableEq, Repr

/-- The position assignment performed by `SetRestraintParameters` in
`rstr.py` lines 325-337: the `r0` shortcut (positions set from the harmonic
defaults and then divided by the report conversion) or the individual
assignment of any of `r1..r4` (each given value divided by the report
conversion, the other positions kept). -/
def updatedPositions (rst : NmroptRestraint) (p : SetParams) : ℚ × ℚ × ℚ × ℚ :=
  let c := reportConversion rst.kind
  match p.r0 with
  | some r0 =>
      (harmonicR1 rst.kind r0 / c, r0 / c, r0 / c, harmonicR4 rst.kind r0 / c)
  | none =>
      ((p.p1.map (· / c)).getD rst.r1,
       (p.p2.map (· / c)).getD rst.r2,
       (p.p3.map (· / c)).getD rst.r3,
       (p.p4.map (· / c)).getD rst.r4)

/-- The force-constant assignment of `SetRestraintParameters` in `rstr.py`
lines 345-354 (`k0` shortcut or individual `rk2`/`rk3`). -/
def updatedKs (rst : NmroptRestraint) (p : SetParams) : ℚ × ℚ :=
  match p.k0 with
  | some k0 => (k0, k0)
  | none => (p.rk2.getD rst.rk2, p.rk3.getD rst.rk3)

/-- The monotonicity requirement `r1 <= r2 <= r3 <= r4` checked by
`SetRestraintParameters`. -/
def monoPositions (q : ℚ × ℚ × ℚ × ℚ) : Prop :=
  q.1 ≤ q.2.1 ∧ q.2.1 ≤ q.2.2.1 ∧ q.2.2.1 ≤ q.2.2.2

instance (q : ℚ × ℚ × ℚ × ℚ) : Decidable (monoPositions q) := by
  unfold monoPositions; infer_instance

/-- The `ValueError` message raised by `SetRestraintParameters`. -/
def monoErrMsg : String :=
  "ValueError: Restraint positions must be monotonically increasing (r1 <= r2 <= r3 <= r4)."

/-- `NmroptRestraint.SetRestraintParameters` of `rstr.py` (lines 322-354),
returning the post-call object state together with the raised error, if any.
The positions are assigned before the monotonicity check, so on a
`ValueError` the returned state carries the new positions while the force
constants (whose assignment comes after the check) are unchanged. -/
def SetRestraintParameters (rst : NmroptRestraint) (p : SetParams) :
    NmroptRestraint × Option String :=
  let q := updatedPositions rst p
  if monoPositions q then
    let k := updatedKs rst p
    ({ rst with r1 := q.1, r2 := q.2.1, r3 := q.2.2.1, r4 := q.2.2.2,
                rk2 := k.1, rk3 := k.2 }, none)
  else
    ({ rst with r1 := q.1, r2 := q.2.1, r3 := q.2.2.1, r4 := q.2.2.2 },
     some monoErrMsg)

/-- The harmonic flat-bottom well of `NmroptRestraint.EnergyAndGradients`
(`rstr.py` lines 389-411): the energy and the branch derivative `dedr`
computed from a coordinate value `r`. -/
def restraintEnergyDedr (rst : NmroptRestraint) (r : ℚ) : ℚ × ℚ :=
  if r < rst.r1 then
    let dr := rst.r1 - rst.r2
    let dedr := 2 * rst.rk2 * dr
    (dedr * (r - rst.r1) + rst.rk2 * dr ^ 2, dedr)
  else if rst.r1 ≤ r ∧ r < rst.r2 then
    let dr := r - rst.r2
    (rst.rk2 * dr ^ 2, 2 * rst.rk2 * dr)
  else if rst.r2 ≤ r ∧ r < rst.r3 then
    (0, 0)
  else if rst.r3 ≤ r ∧ r < rst.r4 then
    let dr := r - rst.r3
    (rst.rk3 * dr ^ 2, 2 * rst.rk3 * dr)
  else
    let dr := rst.r4 - rst.r3
    let dedr := 2 * rst.rk3 * dr
    (dedr * (r - rst.r4) + rst.rk3 * dr ^ 2, dedr)

/-- `NmroptRestraint.Energy` on the numeric-shortcut path of
`EnergyAndGradients` (a pre-computed coordinate value). -/
def Energy (rst : NmroptRestraint) (r : ℚ) : ℚ :=
  (restraintEnergyDedr rst r).1

end Rstr

namespace Rstr

/-- Closed-form energy of the first branch (`r < r1`, linear extrapolation),
from `rstr.py` lines 393-396. -/
def eBranchLin1 (rst : NmroptRestraint) (r : ℚ) : ℚ :=
  2 * rst.rk2 * (rst.r1 - rst.r2) * (r - rst.r1) + rst.rk2 * (rst.r1 - rst.r2) ^ 2

/-- Closed-form derivative of the first branch. -/
def dBranchLin1 (rst : NmroptRestraint) (_r : ℚ) : ℚ :=
  2 * rst.rk2 * (rst.r1 - rst.r2)

/-- Closed-form energy of the second branch (`r1 <= r < r2`, left parabola),
from `rstr.py` lines 397-400. -/
def eBranchPar2 (rst : NmroptRestraint) (r : ℚ) : ℚ :=
  rst.rk2 * (r - rst.r2) ^ 2

/-- Closed-form derivative of the second branch. -/
def dBranchPar2 (rst : NmroptRestraint) (r : ℚ) : ℚ :=
  2 * rst.rk2 * (r - rst.r2)

/-- Closed-form energy of the flat branch (`r2 <= r < r3`). -/
def eBranchFlat (_rst : NmroptRestraint) (_r : ℚ) : ℚ := 0

/-- Closed-form derivative of the flat branch. -/
def dBranchFlat (_rst : NmroptRestraint) (_r : ℚ) : ℚ := 0

/-- Closed-form energy of the fourth branch (`r3 <= r < r4`, right parabola),
from `rstr.py` lines 404-407. -/
def eBranchPar4 (rst : NmroptRestraint) (r : ℚ) : ℚ :=
  rst.rk3 * (r - rst.r3) ^ 2

/-- Closed-form derivative of the fourth branch. -/
def dBranchPar4 (rst : NmroptRestraint) (r : ℚ) : ℚ :=
  2 * rst.rk3 * (r - rst.r3)

/-- Closed-form energy of the last branch (`r >= r4`, linear extrapolation),
from `rstr.py` lines 408-411. -/
def eBranchLin5 (rst : NmroptRestraint) (r : ℚ) : ℚ :=
  2 * rst.rk3 * (rst.r4 - rst.r3) * (r - rst.r4) + rst.rk3 * (rst.r4 - rst.r3) ^ 2

/-- Closed-form derivative of the last branch. -/
def dBranchLin5 (rst : NmroptRestraint) (_r : ℚ) : ℚ :=
  2 * rst.rk3 * (rst.r4 - rst.r3)

end Rstr

/-- Fresh `BondRestraint((1,2))` as built by `BondRestraint.__init__` before
any parameter assignment (`_r` and `_rk` all zero). -/
def zeroBondRstr : Rstr.NmroptRestraint :=
  ⟨RstrKind.bond, [1, 2], [], 0, 0, 0, 0, 0, 0⟩

/-- The bond restraint of the concrete scenario: atoms (1,2), `r0=1.0`,
`k0=10`, stored state after `SetRestraintParameters`. -/
def bondScenario : Rstr.NmroptRestraint :=
  ⟨RstrKind.bond, [1, 2], [], -499, 1, 1, 501, 10, 10⟩

/-- Claim C1: for boundaries `r1 <= r2 <= r3 <= r4` the energy of
`EnergyAndGradients` follows the five-branch flat-bottom law, and the bond
restraint built with `r0=1.0`, `k0=10` has stored parameters
`(-499, 1, 1, 501, 10, 10)` and energy `2.5` at coordinate `1.5`. -/
theorem claim1_energy_law :
    (∀ (rst : Rstr.NmroptRestraint), rst.r1 ≤ rst.r2 → rst.r2 ≤ rst.r3 →
      rst.r3 ≤ rst.r4 → ∀ r : ℚ,
      (r < rst.r1 → Rstr.Energy rst r =
        2 * rst.rk2 * (rst.r1 - rst.r2) * (r - rst.r1) +
          rst.rk2 * (rst.r1 - rst.r2) ^ 2) ∧
      (rst.r1 ≤ r → r < rst.r2 → Rstr.Energy rst r = rst.rk2 * (r - rst.r2) ^ 2) ∧
      (rst.r2 ≤ r → r < rst.r3 → Rstr.Energy rst r = 0) ∧
      (rst.r3 ≤ r → r < rst.r4 → Rstr.Energy rst r = rst.rk3 * (r - rst.r3) ^ 2) ∧
      (rst.r4 ≤ r → Rstr.Energy rst r =
        2 * rst.rk3 * (rst.r4 - rst.r3) * (r - rst.r4) +
          rst.rk3 * (rst.r4 - rst.r3) ^ 2)) ∧
    Rstr.SetRestraintParameters zeroBondRstr { r0 := some 1, k0 := some 10 } =
      (bondScenario, none) ∧
    Rstr.Energy bondScenario (3 / 2) = 5 / 2 := by
  refine ⟨fun rst h12 h23 h34 r => ⟨fun h1 => ?_, fun ha hb => ?_, fun ha hb => ?_,
      fun ha hb => ?_, fun h4 => ?_⟩, ?_, ?_⟩
  · simp only [Rstr.Energy, Rstr.restraintEnergyDedr, if_pos h1]
  · simp only [Rstr.Energy, Rstr.restraintEnergyDedr, if_neg (not_lt.mpr ha),
      if_pos (And.intro ha hb)]
  · have k1 : ¬ r < rst.r1 := not_lt.mpr (le_trans h12 ha)
    have k2 : ¬ (rst.r1 ≤ r ∧ r < rst.r2) := fun h => absurd h.2 (not_lt.mpr ha)
    simp only [Rstr.Energy, Rstr.restraintEnergyDedr, if_neg k1, if_neg k2,
      if_pos (And.intro ha hb)]
  · have k1 : ¬ r < rst.r1 := not_lt.mpr (le_trans h12 (le_trans h23 ha))
    have k2 : ¬ (rst.r1 ≤ r ∧ r < rst.r2) := fun h =>
      absurd h.2 (not_lt.mpr (le_trans h23 ha))
    have k3 : ¬ (rst.r2 ≤ r ∧ r < rst.r3) := fun h => absurd h.2 (not_lt.mpr ha)
    simp only [Rstr.Energy, Rstr.restraintEnergyDedr, if_neg k1, if_neg k2, if_neg k3,
      if_pos (And.intro ha hb)]
  · have k1 : ¬ r < rst.r1 := by push_neg; linarith
    have k2 : ¬ (rst.r1 ≤ r ∧ r < rst.r2) := fun h => absurd h.2 (by push_neg; linarith)
    have k3 : ¬ (rst.r2 ≤ r ∧ r < rst.r3) := fun h => absurd h.2 (by push_neg; linarith)
    have k4 : ¬ (rst.r3 ≤ r ∧ r < rst.r4) := fun h => absurd h.2 (not_lt.mpr h4)
    simp only [Rstr.Energy, Rstr.restraintEnergyDedr, if_neg k1, if_neg k2, if_neg k3,
      if_neg k4]
  · norm_num [Rstr.SetRestraintParameters, Rstr.updatedPositions, Rstr.updatedKs,
      Rstr.monoPositions, Rstr.harmonicR1, Rstr.harmonicR4, Rstr.reportConversion,
      zeroBondRstr, bondScenario]
  · norm_num [Rstr.Energy, Rstr.restraintEnergyDedr, bondScenario]

/-- Witness for C1: the monotonicity hypotheses hold for the scenario
restraint, and the theorem applies to it, for example on the linear branch
at `r = 600`. -/
theorem claim1_energy_law_witness :
    (bondScenario.r1 ≤ bondScenario.r2 ∧ bondScenario.r2 ≤ bondScenario.r3 ∧
      bondScenario.r3 ≤ bondScenario.r4 ∧ bondScenario.r4 ≤ (600 : ℚ)) ∧
    Rstr.Energy bondScenario 600 =
      2 * bondScenario.rk3 * (bondScenario.r4 - bondScenario.r3) * (600 - bondScenario.r4) +
        bondScenario.rk3 * (bondScenario.r4 - bondScenario.r3) ^ 2 :=
  ⟨by norm_num [bondScenario],
   (claim1_energy_law.1 bondScenario (by norm_num [bondScenario])
      (by norm_num [bondScenario]) (by norm_num [bondScenario]) 600).2.2.2.2
     (by norm_num [bondScenario])⟩

/-- Claim C2: for boundaries `r1 <= r2 <= r3 <= r4` the closed-form energy
expressions and branch derivatives of adjacent branches agree at each
boundary, and the piecewise energy (with its branch derivative) is exactly
zero on the whole interval `[r2, r3]`. -/
theorem claim2_continuity (rst : Rstr.NmroptRestraint)
    (h12 : rst.r1 ≤ rst.r2) (h23 : rst.r2 ≤ rst.r3) (h34 : rst.r3 ≤ rst.r4) :
    (Rstr.eBranchLin1 rst rst.r1 = Rstr.eBranchPar2 rst rst.r1 ∧
      Rstr.dBranchLin1 rst rst.r1 = Rstr.dBranchPar2 rst rst.r1) ∧
    (Rstr.eBranchPar2 rst rst.r2 = Rstr.eBranchFlat rst rst.r2 ∧
      Rstr.dBranchPar2 rst rst.r2 = Rstr.dBranchFlat rst rst.r2) ∧
    (Rstr.eBranchFlat rst rst.r3 = Rstr.eBranchPar4 rst rst.r3 ∧
      Rstr.dBranchFlat rst rst.r3 = Rstr.dBranchPar4 rst rst.r3) ∧
    (Rstr.eBranchPar4 rst rst.r4 = Rstr.eBranchLin5 rst rst.r4 ∧
      Rstr.dBranchPar4 rst rst.r4 = Rstr.dBranchLin5 rst rst.r4) ∧
    (∀ r : ℚ, rst.r2 ≤ r → r ≤ rst.r3 → Rstr.restraintEnergyDedr rst r = (0, 0)) := by
  refine ⟨⟨by unfold Rstr.eBranchLin1 Rstr.eBranchPar2; ring,
      by unfold Rstr.dBranchLin1 Rstr.dBranchPar2; ring⟩,
    ⟨by unfold Rstr.eBranchPar2 Rstr.eBranchFlat; ring,
      by unfold Rstr.dBranchPar2 Rstr.dBranchFlat; ring⟩,
    ⟨by unfold Rstr.eBranchFlat Rstr.eBranchPar4; ring,
      by unfold Rstr.dBranchFlat Rstr.dBranchPar4; ring⟩,
    ⟨by unfold Rstr.eBranchPar4 Rstr.eBranchLin5; ring,
      by unfold Rstr.dBranchPar4 Rstr.dBranchLin5; ring⟩,
    fun r ha hb => ?_⟩
  have k1 : ¬ r < rst.r1 := not_lt.mpr (le_trans h12 ha)
  have k2 : ¬ (rst.r1 ≤ r ∧ r < rst.r2) := fun h => absurd h.2 (not_lt.mpr ha)
  by_cases hc : r < rst.r3
  · simp only [Rstr.restraintEnergyDedr, if_neg k1, if_neg k2, if_pos (And.intro ha hc)]
  · have hr3 : r = rst.r3 := le_antisymm hb (not_lt.mp hc)
    rw [hr3]
    have m1 : ¬ rst.r3 < rst.r1 := not_lt.mpr (le_trans h12 h23)
    have m2 : ¬ (rst.r1 ≤ rst.r3 ∧ rst.r3 < rst.r2) := fun h =>
      absurd h.2 (not_lt.mpr h23)
    have m3 : ¬ (rst.r2 ≤ rst.r3 ∧ rst.r3 < rst.r3) := fun h => absurd h.2 (lt_irrefl _)
    by_cases hd : rst.r3 < rst.r4
    · simp only [Rstr.restraintEnergyDedr, if_neg m1, if_neg m2, if_neg m3,
        if_pos (And.intro le_rfl hd), sub_self]
      norm_num
    · have m4 : ¬ (rst.r3 ≤ rst.r3 ∧ rst.r3 < rst.r4) := fun h => absurd h.2 hd
      have hr4 : rst.r4 = rst.r3 := le_antisymm (not_lt.mp hd) h34
      simp only [Rstr.restraintEnergyDedr, if_neg m1, if_neg m2, if_neg m3, if_neg m4,
        hr4, sub_self]
      norm_num

/-- Witness for C2: the theorem applies to the concrete scenario restraint,
including zero energy in the middle of its flat window. -/
theorem claim2_continuity_witness :
    (bondScenario.r1 ≤ bondScenario.r2 ∧ bondScenario.r2 ≤ bondScenario.r3 ∧
      bondScenario.r3 ≤ bondScenario.r4 ∧
      bondScenario.r2 ≤ (1 : ℚ) ∧ (1 : ℚ) ≤ bondScenario.r3) ∧
    Rstr.restraintEnergyDedr bondScenario 1 = (0, 0) :=
  ⟨by norm_num [bondScenario],
   (claim2_continuity bondScenario (by norm_num [bondScenario])
      (by norm_num [bondScenario]) (by norm_num [bondScenario])).2.2.2.2 1
     (by norm_num [bondScenario]) (by norm_num [bondScenario])⟩

namespace Rstr

/-- The nearest-periodic-image loop shared by `TorsionRestraint.Coord` and
`TorsionRestraint.CoordAndGradients` (`rstr.py` lines 598-607 and 628-637):
while the value is more than `piv` away from `rmean`, shift it by `2*piv`
toward `rmean`.  The loop is embedded with explicit fuel; `piv` stands for
the float constant `math.pi` of the source. -/
def wrapFuel (piv rmean : ℚ) : ℕ → ℚ → Option ℚ
  | 0, _ => none
  | fuel + 1, r =>
    if piv < r - rmean then wrapFuel piv rmean fuel (r - 2 * piv)
    else if piv < rmean - r then wrapFuel piv rmean fuel (r + 2 * piv)
    else some r

/-- `TorsionRestraint.Coord`: the raw dihedral returned by the geometry
provider (`coordinates.Dihedral`), wrapped to the nearest periodic image of
the window center `(r2 + r3) / 2`. -/
def TorsionCoord (piv : ℚ) (rst : NmroptRestraint) (raw : ℚ) (fuel : ℕ) : Option ℚ :=
  wrapFuel piv ((rst.r2 + rst.r3) / 2) fuel raw

/-- `TorsionRestraint.CoordAndGradients`: the same wrap applied to the raw
dihedral, paired with the gradient list assembled from the geometry
provider. -/
def TorsionCoordAndGradients (piv : ℚ) (rst : NmroptRestraint) (raw : ℚ)
    (drdx : List ℚ) (fuel : ℕ) : Option (ℚ × List ℚ) :=
  (wrapFuel piv ((rst.r2 + rst.r3) / 2) fuel raw).map (fun v => (v, drdx))

/-- On success the wrap loop returns a value in the closed interval
`[rmean - piv, rmean + piv]` that is a `2*piv`-periodic image of the
input. -/
theorem wrapFuel_sound (piv rmean : ℚ) :
    ∀ (n : ℕ) (r v : ℚ), wrapFuel piv rmean n r = some v →
      (rmean - piv ≤ v ∧ v ≤ rmean + piv) ∧ ∃ k : ℤ, v = r + 2 * piv * k := by
  intro n
  induction n with
  | zero => intro r v h; simp [wrapFuel] at h
  | succ n ih =>
    intro r v h
    simp only [wrapFuel] at h
    by_cases h1 : piv < r - rmean
    · rw [if_pos h1] at h
      obtain ⟨hb, k, hk⟩ := ih _ _ h
      exact ⟨hb, ⟨k - 1, by push_cast; linarith⟩⟩
    · rw [if_neg h1] at h
      by_cases h2 : piv < rmean - r
      · rw [if_pos h2] at h
        obtain ⟨hb, k, hk⟩ := ih _ _ h
        exact ⟨hb, ⟨k + 1, by push_cast; linarith⟩⟩
      · rw [if_neg h2] at h
        obtain rfl : r = v := by simpa using h
        push_neg at h1 h2
        exact ⟨⟨by linarith, by linarith⟩, ⟨0, by push_cast; ring⟩⟩

/-- With fuel `n + 1` the wrap loop succeeds whenever the input is within
`piv + 2*piv*n` of the center. -/
theorem wrapFuel_total (piv rmean : ℚ) (hpiv : 0 < piv) :
    ∀ (n : ℕ) (r : ℚ), |r - rmean| ≤ piv + 2 * piv * n →
      ∃ v, wrapFuel piv rmean (n + 1) r = some v := by
  intro n
  induction n with
  | zero =>
    intro r h
    rw [abs_le] at h
    simp only [Nat.cast_zero, mul_zero, add_zero] at h
    refine ⟨r, ?_⟩
    simp only [wrapFuel, if_neg (not_lt.mpr (by linarith : r - rmean ≤ piv)),
      if_neg (not_lt.mpr (by linarith : rmean - r ≤ piv))]
  | succ n ih =>
    intro r h
    rw [abs_le] at h
    push_cast at h
    have hn : (0 : ℚ) ≤ (n : ℚ) := Nat.cast_nonneg n
    have hprod : (0 : ℚ) ≤ 2 * piv * (n : ℚ) := by positivity
    by_cases h1 : piv < r - rmean
    · obtain ⟨v, hv⟩ := ih (r - 2 * piv) (by rw [abs_le]; constructor <;> linarith)
      exact ⟨v, by simp only [wrapFuel, if_pos h1]; exact hv⟩
    · by_cases h2 : piv < rmean - r
      · obtain ⟨v, hv⟩ := ih (r + 2 * piv) (by rw [abs_le]; constructor <;> linarith)
        exact ⟨v, by simp only [wrapFuel, if_neg h1, if_pos h2]; exact hv⟩
      · exact ⟨r, by simp only [wrapFuel, if_neg h1, if_neg h2]⟩

/-- A successful wrap result is stable under extra fuel. -/
theorem wrapFuel_mono (piv rmean : ℚ) :
    ∀ (n m : ℕ), n ≤ m → ∀ (r v : ℚ),
      wrapFuel piv rmean n r = some v → wrapFuel piv rmean m r = some v := by
  intro n
  induction n with
  | zero => intro m _ r v h; simp [wrapFuel] at h
  | succ n ih =>
    intro m hm r v h
    obtain ⟨m', rfl⟩ : ∃ m', m = m' + 1 := ⟨m - 1, by omega⟩
    have hnm : n ≤ m' := by omega
    simp only [wrapFuel] at h ⊢
    by_cases h1 : piv < r - rmean
    · rw [if_pos h1] at h ⊢
      exact ih m' hnm _ _ h
    · rw [if_neg h1] at h ⊢
      by_cases h2 : piv < rmean - r
      · rw [if_pos h2] at h ⊢
        exact ih m' hnm _ _ h
      · rw [if_neg h2] at h ⊢
        exact h

end Rstr

/-- The torsion restraint of the C3 counterexample: window center
`(r2 + r3) / 2` equal to `mathPi`. -/
def torsionScenario : Rstr.NmroptRestraint :=
  ⟨RstrKind.torsion, [1, 2, 3, 4], [], 0, mathPi, mathPi, 2 * mathPi, 1, 1⟩

/-- Counterexample to C3 as stated: for the torsion window centered at
`mathPi`, a raw dihedral of `0` (which is exactly `center - pi`) is returned
unchanged by `Coord`, and it does NOT lie in the claimed half-open interval
`(center - pi, center + pi]` because the strict lower bound fails. -/
theorem claim3_counterexample :
    Rstr.TorsionCoord mathPi torsionScenario 0 1 = some 0 ∧
    ¬ ((torsionScenario.r2 + torsionScenario.r3) / 2 - mathPi < 0) := by
  constructor
  · simp only [Rstr.TorsionCoord, Rstr.wrapFuel, torsionScenario]
    norm_num [mathPi]
  · norm_num [torsionScenario]

/-- Claim C3 (amended): for every torsion restraint and every raw dihedral,
`Coord` returns a `2*pi`-periodic image of the raw value lying in the CLOSED
interval `[center - pi, center + pi]` around the window center
`(r2 + r3) / 2` (the endpoint `center - pi` is reachable, so the interval is
not half-open), and `CoordAndGradients` applies exactly the same wrap, its
first component agreeing with `Coord`. -/
theorem claim3_amended :
    (∀ (piv : ℚ), 0 < piv → ∀ (rst : Rstr.NmroptRestraint) (raw : ℚ) (fuel : ℕ) (v : ℚ),
      Rstr.TorsionCoord piv rst raw fuel = some v →
        (rst.r2 + rst.r3) / 2 - piv ≤ v ∧ v ≤ (rst.r2 + rst.r3) / 2 + piv ∧
          ∃ k : ℤ, v = raw + 2 * piv * k) ∧
    (∀ (piv : ℚ) (rst : Rstr.NmroptRestraint) (raw : ℚ) (drdx : List ℚ) (fuel : ℕ),
      Rstr.TorsionCoordAndGradients piv rst raw drdx fuel =
        (Rstr.TorsionCoord piv rst raw fuel).map (fun v => (v, drdx))) := by
  constructor
  · intro piv _ rst raw fuel v h
    obtain ⟨⟨hl, hr⟩, k, hk⟩ := Rstr.wrapFuel_sound piv ((rst.r2 + rst.r3) / 2) fuel raw v h
    exact ⟨hl, hr, k, hk⟩
  · intro piv rst raw drdx fuel
    rfl

/-- Witness for C3 (amended): the wrap of raw value `7` for a window
centered at `0` with `piv = 1` succeeds and the theorem's conclusions hold
for it. -/
theorem claim3_amended_witness :
    ((0 : ℚ) < 1 ∧ Rstr.TorsionCoord 1 zeroBondRstr 7 5 = some 1) ∧
    ((zeroBondRstr.r2 + zeroBondRstr.r3) / 2 - 1 ≤ 1 ∧
      (1 : ℚ) ≤ (zeroBondRstr.r2 + zeroBondRstr.r3) / 2 + 1 ∧
      ∃ k : ℤ, (1 : ℚ) = 7 + 2 * 1 * k) :=
  ⟨⟨by norm_num, by norm_num [Rstr.TorsionCoord, Rstr.wrapFuel, zeroBondRstr]⟩,
   claim3_amended.1 1 (by norm_num) zeroBondRstr 7 5 1
     (by norm_num [Rstr.TorsionCoord, Rstr.wrapFuel, zeroBondRstr])⟩

/-- Claim C10: the nearest-image wrap loop of `TorsionRestraint.Coord` and
`TorsionRestraint.CoordAndGradients` terminates for every input: some fuel
suffices, the result is stable under more fuel, and the final value is
within `piv` of the center. -/
theorem claim10_wrap_terminates (piv : ℚ) (hpiv : 0 < piv) (rmean r : ℚ) :
    (∃ n : ℕ, ∀ m : ℕ, n ≤ m → ∃ v : ℚ,
      Rstr.wrapFuel piv rmean m r = some v ∧ |v - rmean| ≤ piv) ∧
    (∀ (rst : Rstr.NmroptRestraint) (drdx : List ℚ), ∃ n : ℕ, ∀ m : ℕ, n ≤ m →
      (Rstr.TorsionCoord piv rst r m).isSome = true ∧
      (Rstr.TorsionCoordAndGradients piv rst r drdx m).isSome = true) := by
  have key : ∀ c : ℚ, ∃ n : ℕ, ∀ m : ℕ, n ≤ m → ∃ v : ℚ,
      Rstr.wrapFuel piv c m r = some v ∧ |v - c| ≤ piv := by
    intro c
    obtain ⟨n, hn⟩ := exists_nat_ge (|r - c| / (2 * piv))
    have h2 : (0 : ℚ) < 2 * piv := by linarith
    have hb : |r - c| ≤ piv + 2 * piv * n := by
      have := (div_le_iff₀ h2).mp hn
      linarith [this]
    obtain ⟨v, hv⟩ := Rstr.wrapFuel_total piv c hpiv n r hb
    refine ⟨n + 1, fun m hm => ⟨v, Rstr.wrapFuel_mono piv c (n + 1) m hm r v hv, ?_⟩⟩
    obtain ⟨⟨hl, hr⟩, _⟩ := Rstr.wrapFuel_sound piv c (n + 1) r v hv
    rw [abs_le]
    exact ⟨by linarith, by linarith⟩
  refine ⟨key rmean, fun rst drdx => ?_⟩
  obtain ⟨n, hn⟩ := key ((rst.r2 + rst.r3) / 2)
  refine ⟨n, fun m hm => ?_⟩
  obtain ⟨v, hv, _⟩ := hn m hm
  constructor
  · simp [Rstr.TorsionCoord, hv]
  · simp [Rstr.TorsionCoordAndGradients, hv]

/-- Witness for C10: with `piv = 1` the loop wraps raw value `7` centered at
`0` for every sufficient fuel. -/
theorem claim10_wrap_terminates_witness :
    (0 : ℚ) < 1 ∧
    (∃ n : ℕ, ∀ m : ℕ, n ≤ m → ∃ v : ℚ,
      Rstr.wrapFuel 1 0 m 7 = some v ∧ |v - 0| ≤ 1) :=
  ⟨by norm_num, (claim10_wrap_terminates 1 (by norm_num) 0 7).1⟩

/-- Counterexample to C6 as stated: assigning `r1=600` to the valid bond
restraint `(-499, 1, 1, 501)` raises the `ValueError`, but the restraint is
left with the partially updated positions (`r1` is now `600`), not
unchanged. -/
theorem claim6_counterexample :
    (Rstr.SetRestraintParameters bondScenario { p1 := some 600 }).2 =
      some Rstr.monoErrMsg ∧
    (Rstr.SetRestraintParameters bondScenario { p1 := some 600 }).1.r1 = 600 ∧
    ¬ ((Rstr.SetRestraintParameters bondScenario { p1 := some 600 }).1 =
        bondScenario) := by
  norm_num [Rstr.SetRestraintParameters, Rstr.updatedPositions, Rstr.updatedKs,
    Rstr.monoPositions, Rstr.reportConversion, bondScenario,
    Rstr.NmroptRestraint.mk.injEq]

/-- Claim C6 (amended): `SetRestraintParameters` raises the `ValueError`
exactly when the newly assigned positions violate `r1 <= r2 <= r3 <= r4`,
but the validation is not atomic: the positions are always overwritten with
the new values (also on error), and only the force constants, kind, atoms
and weights are left unchanged when the error is raised. -/
theorem claim6_amended (rst : Rstr.NmroptRestraint) (p : Rstr.SetParams) :
    ((Rstr.SetRestraintParameters rst p).2.isSome = true ↔
      ¬ Rstr.monoPositions (Rstr.updatedPositions rst p)) ∧
    ((Rstr.SetRestraintParameters rst p).1.r1 = (Rstr.updatedPositions rst p).1 ∧
      (Rstr.SetRestraintParameters rst p).1.r2 = (Rstr.updatedPositions rst p).2.1 ∧
      (Rstr.SetRestraintParameters rst p).1.r3 = (Rstr.updatedPositions rst p).2.2.1 ∧
      (Rstr.SetRestraintParameters rst p).1.r4 = (Rstr.updatedPositions rst p).2.2.2) ∧
    ((Rstr.SetRestraintParameters rst p).2.isSome = true →
      (Rstr.SetRestraintParameters rst p).1.rk2 = rst.rk2 ∧
      (Rstr.SetRestraintParameters rst p).1.rk3 = rst.rk3 ∧
      (Rstr.SetRestraintParameters rst p).1.kind = rst.kind ∧
      (Rstr.SetRestraintParameters rst p).1.iat = rst.iat ∧
      (Rstr.SetRestraintParameters rst p).1.rstwt = rst.rstwt) := by
  unfold Rstr.SetRestraintParameters
  by_cases h : Rstr.monoPositions (Rstr.updatedPositions rst p)
  · simp [h]
  · simp [h]

/-- Witness for C6 (amended): the failed `r1=600` assignment leaves the
force constants, kind, atoms and weights of the bond restraint unchanged. -/
theorem claim6_amended_witness :
    (Rstr.SetRestraintParameters bondScenario { p1 := some 600 }).2.isSome = true ∧
    ((Rstr.SetRestraintParameters bondScenario { p1 := some 600 }).1.rk2 =
        bondScenario.rk2 ∧
      (Rstr.SetRestraintParameters bondScenario { p1 := some 600 }).1.rk3 =
        bondScenario.rk3 ∧
      (Rstr.SetRestraintParameters bondScenario { p1 := some 600 }).1.kind =
        bondScenario.kind ∧
      (Rstr.SetRestraintParameters bondScenario { p1 := some 600 }).1.iat =
        bondScenario.iat ∧
      (Rstr.SetRestraintParameters bondScenario { p1 := some 600 }).1.rstwt =
        bondScenario.rstwt) :=
  have hs : (Rstr.SetRestraintParameters bondScenario { p1 := some 600 }).2.isSome =
      true := by
    norm_num [Rstr.SetRestraintParameters, Rstr.updatedPositions, Rstr.monoPositions,
      Rstr.reportConversion, bondScenario]
  ⟨hs, (claim6_amended bondScenario { p1 := some 600 }).2.2 hs⟩

theorem degPerRad_pos : 0 < degPerRad := by norm_num [degPerRad, mathPi]

theorem radPerDeg_pos : 0 < radPerDeg := by norm_num [radPerDeg, mathPi]

theorem div_le_div_of_le_pos {a b c : ℚ} (h : a ≤ b) (hc : 0 < c) : a / c ≤ b / c := by
  rw [div_eq_mul_inv, div_eq_mul_inv]
  exact mul_le_mul_of_nonneg_right h (le_of_lt (inv_pos.mpr hc))

namespace ARP

/-- State of an `NmroptRestraint` object of `AmberRestraint.py`: the
restraint type tag, the atom tuple, the optional `rstwt` weights, the four
stored positions and the two force constants. -/
structure NmroptRestraint where
  rstType : RstrKind
  iat : List ℤ
  rstwt : Option (List ℚ)
  r1 : ℚ
  r2 : ℚ
  r3 : ℚ
  r4 : ℚ
  rk2 : ℚ
  rk3 : ℚ
  deriving DecidableEq, Repr

/-- Whether the kind is measured in degrees externally (`Angle` or
`Torsion` in `AmberRestraint.py`). -/
def angular : RstrKind → Bool
  | RstrKind.angle => true
  | RstrKind.torsion => true
  | _ => false

/-- The position assignment of `SetRestraintParameters` in
`AmberRestraint.py` (lines 230-252): the `r0` shortcut places `r1`/`r4` at
type-specific values (`r0 - 180` and `r0 + 180` for Torsion, `0` and `r0 + 180` for
Angle, `0` and `r0 + 500` for the distance kinds); afterwards the whole
position list is multiplied by `pi/180` for the angular kinds. -/
def updatedPositions (rst : NmroptRestraint) (p : Rstr.SetParams) : ℚ × ℚ × ℚ × ℚ :=
  let base :=
    match p.r0 with
    | some r0 =>
      match rst.rstType with
      | RstrKind.torsion => (r0 - 180, r0, r0, r0 + 180)
      | RstrKind.angle => ((0 : ℚ), r0, r0, r0 + 180)
      | _ => ((0 : ℚ), r0, r0, r0 + 500)
    | none =>
      (p.p1.getD rst.r1, p.p2.getD rst.r2, p.p3.getD rst.r3, p.p4.getD rst.r4)
  if angular rst.rstType then
    (base.1 * radPerDeg, base.2.1 * radPerDeg, base.2.2.1 * radPerDeg,
     base.2.2.2 * radPerDeg)
  else base

/-- The force-constant assignment of `SetRestraintParameters` in
`AmberRestraint.py` (lines 260-269). -/
def updatedKs (rst : NmroptRestraint) (p : Rstr.SetParams) : ℚ × ℚ :=
  match p.k0 with
  | some k0 => (k0, k0)
  | none => (p.rk2.getD rst.rk2, p.rk3.getD rst.rk3)

/-- `NmroptRestraint.SetRestraintParameters` of `AmberRestraint.py`
(lines 227-269), returning the post-call state and the raised error, if
any. -/
def SetRestraintParameters (rst : NmroptRestraint) (p : Rstr.SetParams) :
    NmroptRestraint × Option String :=
  let q := updatedPositions rst p
  if Rstr.monoPositions q then
    let k := updatedKs rst p
    ({ rst with r1 := q.1, r2 := q.2.1, r3 := q.2.2.1, r4 := q.2.2.2,
                rk2 := k.1, rk3 := k.2 }, none)
  else
    ({ rst with r1 := q.1, r2 := q.2.1, r3 := q.2.2.1, r4 := q.2.2.2 },
     some Rstr.monoErrMsg)

end ARP

/-- Fresh two-atom `NmroptRestraint` of `AmberRestraint.py` before any
parameter assignment. -/
def zeroBondARP : ARP.NmroptRestraint :=
  ⟨RstrKind.bond, [1, 2], none, 0, 0, 0, 0, 0, 0⟩

/-- Counterexample to C7 as stated: in `AmberRestraint.py`, the `r0=1.0`,
`k0=10` shortcut on a two-atom (Bond) restraint stores `r1 = 0`, not
`r0 - 500 = -499`. -/
theorem claim7_counterexample :
    (ARP.SetRestraintParameters zeroBondARP { r0 := some 1, k0 := some 10 }).1.r1 = 0 ∧
    ¬ ((ARP.SetRestraintParameters zeroBondARP
        { r0 := some 1, k0 := some 10 }).1.r1 = 1 - 500) := by
  norm_num [ARP.SetRestraintParameters, ARP.updatedPositions, ARP.updatedKs,
    ARP.angular, Rstr.monoPositions, zeroBondARP]

/-- Claim C7 (amended): the `r0`/`k0` shortcut of `rstr.py` expands exactly
as claimed (`r2 = r3 = r0`, `k_left = k_right = k0`, with `r1`, `r4` at
`r0 - 500` and `r0 + 500` for Bond and GeneralizedDistance, `r0 - 180` and
`r0 + 180` degrees for Torsion, `0` and `180` degrees for Angle, stored
after the kind's unit conversion); in the older `AmberRestraint.py`,
however, the distance-like kinds store `r1 = 0` (not `r0 - 500`) and Angle
stores `r4 = r0 + 180` degrees (not `180`). -/
theorem claim7_amended (ρ κ : ℚ) :
    (∀ rst : Rstr.NmroptRestraint, rst.kind = RstrKind.bond →
      Rstr.SetRestraintParameters rst { r0 := some ρ, k0 := some κ } =
        ({ rst with r1 := ρ - 500, r2 := ρ, r3 := ρ, r4 := ρ + 500,
                    rk2 := κ, rk3 := κ }, none)) ∧
    (∀ rst : Rstr.NmroptRestraint, rst.kind = RstrKind.genDistCoord →
      Rstr.SetRestraintParameters rst { r0 := some ρ, k0 := some κ } =
        ({ rst with r1 := ρ - 500, r2 := ρ, r3 := ρ, r4 := ρ + 500,
                    rk2 := κ, rk3 := κ }, none)) ∧
    (∀ rst : Rstr.NmroptRestraint, rst.kind = RstrKind.torsion →
      Rstr.SetRestraintParameters rst { r0 := some ρ, k0 := some κ } =
        ({ rst with r1 := (ρ - 180) / degPerRad, r2 := ρ / degPerRad,
                    r3 := ρ / degPerRad, r4 := (ρ + 180) / degPerRad,
                    rk2 := κ, rk3 := κ }, none)) ∧
    (∀ rst : Rstr.NmroptRestraint, rst.kind = RstrKind.angle → 0 ≤ ρ → ρ ≤ 180 →
      Rstr.SetRestraintParameters rst { r0 := some ρ, k0 := some κ } =
        ({ rst with r1 := 0, r2 := ρ / degPerRad, r3 := ρ / degPerRad,
                    r4 := 180 / degPerRad, rk2 := κ, rk3 := κ }, none)) ∧
    (∀ rst : ARP.NmroptRestraint, rst.rstType = RstrKind.bond → 0 ≤ ρ →
      ARP.SetRestraintParameters rst { r0 := some ρ, k0 := some κ } =
        ({ rst with r1 := 0, r2 := ρ, r3 := ρ, r4 := ρ + 500,
                    rk2 := κ, rk3 := κ }, none)) ∧
    (∀ rst : ARP.NmroptRestraint, rst.rstType = RstrKind.torsion →
      ARP.SetRestraintParameters rst { r0 := some ρ, k0 := some κ } =
        ({ rst with r1 := (ρ - 180) * radPerDeg, r2 := ρ * radPerDeg,
                    r3 := ρ * radPerDeg, r4 := (ρ + 180) * radPerDeg,
                    rk2 := κ, rk3 := κ }, none)) ∧
    (∀ rst : ARP.NmroptRestraint, rst.rstType = RstrKind.angle → 0 ≤ ρ →
      ARP.SetRestraintParameters rst { r0 := some ρ, k0 := some κ } =
        ({ rst with r1 := 0, r2 := ρ * radPerDeg, r3 := ρ * radPerDeg,
                    r4 := (ρ + 180) * radPerDeg, rk2 := κ, rk3 := κ }, none)) := by
  have hcq := le_of_lt radPerDeg_pos
  refine ⟨fun rst hk => ?_, fun rst hk => ?_, fun rst hk => ?_,
    fun rst hk h0 h180 => ?_, fun rst hk hρ => ?_, fun rst hk => ?_,
    fun rst hk hρ => ?_⟩
  · simp only [Rstr.SetRestraintParameters, Rstr.updatedPositions, Rstr.updatedKs,
      hk, Rstr.reportConversion, Rstr.harmonicR1, Rstr.harmonicR4]
    split_ifs with h
    · norm_num
    · exfalso
      apply h
      refine ⟨?_, ?_, ?_⟩ <;> norm_num
  · simp only [Rstr.SetRestraintParameters, Rstr.updatedPositions, Rstr.updatedKs,
      hk, Rstr.reportConversion, Rstr.harmonicR1, Rstr.harmonicR4]
    split_ifs with h
    · norm_num
    · exfalso
      apply h
      refine ⟨?_, ?_, ?_⟩ <;> norm_num
  · simp only [Rstr.SetRestraintParameters, Rstr.updatedPositions, Rstr.updatedKs,
      hk, Rstr.reportConversion, Rstr.harmonicR1, Rstr.harmonicR4]
    split_ifs with h
    · norm_num
    · exfalso
      apply h
      refine ⟨?_, ?_, ?_⟩ <;> exact div_le_div_of_le_pos (by linarith) degPerRad_pos
  · simp only [Rstr.SetRestraintParameters, Rstr.updatedPositions, Rstr.updatedKs,
      hk, Rstr.reportConversion, Rstr.harmonicR1, Rstr.harmonicR4]
    split_ifs with h
    · norm_num
    · exfalso
      apply h
      have hz : (0 : ℚ) / degPerRad = 0 := zero_div _
      refine ⟨?_, le_refl _, ?_⟩
      · rw [hz]
        exact div_nonneg h0 (le_of_lt degPerRad_pos)
      · exact div_le_div_of_le_pos h180 degPerRad_pos
  · simp only [ARP.SetRestraintParameters, ARP.updatedPositions, ARP.updatedKs,
      hk, ARP.angular]
    norm_num
    intro h
    exact absurd ⟨hρ, le_refl _, show ρ ≤ ρ + 500 by linarith⟩ h
  · simp only [ARP.SetRestraintParameters, ARP.updatedPositions, ARP.updatedKs,
      hk, ARP.angular]
    norm_num
    intro h
    exact absurd ⟨mul_le_mul_of_nonneg_right (by linarith) hcq, le_refl _,
      mul_le_mul_of_nonneg_right (by linarith) hcq⟩ h
  · simp only [ARP.SetRestraintParameters, ARP.updatedPositions, ARP.updatedKs,
      hk, ARP.angular]
    norm_num
    intro h
    exact absurd ⟨mul_nonneg hρ hcq, le_refl _,
      mul_le_mul_of_nonneg_right (by linarith) hcq⟩ h

/-- Witness for C7 (amended): applying the shortcut `r0=1`, `k0=10` to the
fresh bond restraints of both modules. -/
theorem claim7_amended_witness :
    Rstr.SetRestraintParameters zeroBondRstr { r0 := some 1, k0 := some 10 } =
      ({ zeroBondRstr with r1 := 1 - 500, r2 := 1, r3 := 1, r4 := 1 + 500,
                           rk2 := 10, rk3 := 10 }, none) ∧
    ((0 : ℚ) ≤ 1 ∧
      ARP.SetRestraintParameters zeroBondARP { r0 := some 1, k0 := some 10 } =
        ({ zeroBondARP with r1 := 0, r2 := 1, r3 := 1, r4 := 1 + 500,
                            rk2 := 10, rk3 := 10 }, none)) :=
  ⟨(claim7_amended 1 10).1 zeroBondRstr rfl,
   by norm_num,
   (claim7_amended 1 10).2.2.2.2.1 zeroBondARP rfl (by norm_num)⟩

namespace Rstr

/-- `AmberRestraint.Energy` of `rstr.py` (lines 125-142): when the input
length equals the number of restraints each restraint consumes the matching
scalar coordinate value, otherwise every restraint evaluates the full
Cartesian list through the geometry provider `geom`. -/
def CollectionEnergy (geom : NmroptRestraint → List ℚ → ℚ)
    (rs : List NmroptRestraint) (crds : List ℚ) : ℚ :=
  if crds.length = rs.length then
    (rs.zip crds).foldl (fun acc p => acc + Energy p.1 p.2) 0
  else
    rs.foldl (fun acc rst => acc + Energy rst (geom rst crds)) 0

/-- The energy dictionary built by `AmberRestraint.DecomposeEnergy`
(`rstr.py` lines 169-196): the four kind buckets and the aggregate
`Restraint` key. -/
structure EnergyDecomposition where
  bond : ℚ
  angle : ℚ
  torsion : ℚ
  genDist : ℚ
  restraint : ℚ
  deriving DecidableEq, Repr

/-- The per-restraint `(kind, energy)` contributions accumulated by
`DecomposeEnergy`.  NOTE: in BOTH branches the source iterates over
`zip(self, crds)` (`rstr.py` lines 188 and 191), so in the Cartesian branch
the iteration is truncated to `min(len(self), len(crds))` restraints. -/
def kindEnergies (geom : NmroptRestraint → List ℚ → ℚ)
    (rs : List NmroptRestraint) (crds : List ℚ) : List (RstrKind × ℚ) :=
  if crds.length = rs.length then
    (rs.zip crds).map (fun p => (p.1.kind, Energy p.1 p.2))
  else
    (rs.zip crds).map (fun p => (p.1.kind, Energy p.1 (geom p.1 crds)))

/-- Sum of the contributions of one kind bucket. -/
def sumKind (k : RstrKind) (items : List (RstrKind × ℚ)) : ℚ :=
  (items.filter (fun p => p.1 == k)).foldl (fun a p => a + p.2) 0

/-- `AmberRestraint.DecomposeEnergy` of `rstr.py`: buckets each member's
energy by kind and stores the sum of the four buckets under the `Restraint`
key. -/
def DecomposeEnergy (geom : NmroptRestraint → List ℚ → ℚ)
    (rs : List NmroptRestraint) (crds : List ℚ) : EnergyDecomposition :=
  let items := kindEnergies geom rs crds
  let b := sumKind RstrKind.bond items
  let a := sumKind RstrKind.angle items
  let t := sumKind RstrKind.torsion items
  let g := sumKind RstrKind.genDistCoord items
  ⟨b, a, t, g, b + a + t + g⟩

end Rstr

/-- Geometry provider for a single atom at the origin restrained to itself:
every bond coordinate evaluates to `0`. -/
def geomZero : Rstr.NmroptRestraint → List ℚ → ℚ := fun _ _ => 0

/-- Bond restraint on atoms `(1,1)` with the `r0=1.0`, `k0=10` parameters. -/
def bondSelf : Rstr.NmroptRestraint :=
  ⟨RstrKind.bond, [1, 1], [], -499, 1, 1, 501, 10, 10⟩

/-- Claim C5 evaluated at the failing input: four bond restraints and a
3-element Cartesian list.  `Energy` sums all four restraints (40), but
`DecomposeEnergy` zips the restraints with the coordinate list and so drops
the fourth restraint: its buckets and its `Restraint` key sum to 30. -/
theorem claim5_decompose_mismatch :
    Rstr.CollectionEnergy geomZero [bondSelf, bondSelf, bondSelf, bondSelf]
      [0, 0, 0] = 40 ∧
    (Rstr.DecomposeEnergy geomZero [bondSelf, bondSelf, bondSelf, bondSelf]
      [0, 0, 0]).restraint = 30 ∧
    (Rstr.DecomposeEnergy geomZero [bondSelf, bondSelf, bondSelf, bondSelf]
        [0, 0, 0]).bond +
      (Rstr.DecomposeEnergy geomZero [bondSelf, bondSelf, bondSelf, bondSelf]
        [0, 0, 0]).angle +
      (Rstr.DecomposeEnergy geomZero [bondSelf, bondSelf, bondSelf, bondSelf]
        [0, 0, 0]).torsion +
      (Rstr.DecomposeEnergy geomZero [bondSelf, bondSelf, bondSelf, bondSelf]
        [0, 0, 0]).genDist = 30 ∧
    ¬ ((Rstr.DecomposeEnergy geomZero [bondSelf, bondSelf, bondSelf, bondSelf]
        [0, 0, 0]).restraint =
      Rstr.CollectionEnergy geomZero [bondSelf, bondSelf, bondSelf, bondSelf]
        [0, 0, 0]) := by
  norm_num [Rstr.CollectionEnergy, Rstr.DecomposeEnergy, Rstr.kindEnergies,
    Rstr.sumKind, Rstr.Energy, Rstr.restraintEnergyDedr, geomZero, bondSelf,
    List.zip, List.zipWith, List.foldl, List.filter, List.map]

namespace Rstr

/-- A parsed `&rst` named-value group as delivered by the external namelist
reader (`namelist.ReadNamelists`): the group name, the parsed `iat` integer
list, the parsed `rstwt` float list and the recognized parameter keys. -/
structure NmlGroup where
  name : String
  iat : Option (List ℤ)
  rstwt : Option (List ℚ)
  params : SetParams
  deriving DecidableEq, Repr

/-- Construction of a restraint object from atoms, weights and parameters:
the `__init__` chain of the `rstr.py` classes (zeroed `_r`/`_rk` followed by
`SetRestraintParameters`, whose `ValueError` propagates). -/
def mkNmroptRestraint (k : RstrKind) (iat : List ℤ) (w : List ℚ) (p : SetParams) :
    Except String NmroptRestraint :=
  match SetRestraintParameters ⟨k, iat, w, 0, 0, 0, 0, 0, 0⟩ p with
  | (r, none) => Except.ok r
  | (_, some e) => Except.error e

/-- Decoding of one `&rst` group by `ReadAmberRestraintFile` of `rstr.py`
(lines 34-52): `iat` is required; the presence of `rstwt` selects
`GenDistCoordRestraint` (even atom count asserted, weight count checked
after construction), otherwise the atom count selects Bond, Angle or
Torsion. -/
def decodeGroup (g : NmlGroup) : Except String NmroptRestraint :=
  match g.iat with
  | none => Except.error "iat must be specified to define an nmropt restraint."
  | some iat =>
    match g.rstwt with
    | some w =>
      if iat.length % 2 = 0 then
        match mkNmroptRestraint RstrKind.genDistCoord iat w g.params with
        | Except.error e => Except.error e
        | Except.ok r =>
          if w.length = iat.length / 2 then Except.ok r
          else Except.error "Wrong number of rstwt values provided"
      else Except.error "AssertionError"
    | none =>
      if iat.length = 2 then mkNmroptRestraint RstrKind.bond iat [] g.params
      else if iat.length = 3 then mkNmroptRestraint RstrKind.angle iat [] g.params
      else if iat.length = 4 then mkNmroptRestraint RstrKind.torsion iat [] g.params
      else Except.error "Bad iat specification"

/-- The group loop of `ReadAmberRestraintFile` of `rstr.py`: decode every
group named `rst` in order, skip the others, propagate errors. -/
def readGroups : List NmlGroup → Except String (List NmroptRestraint)
  | [] => Except.ok []
  | g :: gs =>
    if g.name = "rst" then
      match decodeGroup g with
      | Except.error e => Except.error e
      | Except.ok r =>
        match readGroups gs with
        | Except.error e => Except.error e
        | Except.ok rest => Except.ok (r :: rest)
    else readGroups gs

/-- `ReadAmberRestraintFile` of `rstr.py`: the decoded collection together
with the non-fatal warning flag printed when no `&rst` group was found
(lines 53-55). -/
def ReadAmberRestraintFile (gs : List NmlGroup) :
    Except String (List NmroptRestraint × Bool) :=
  match readGroups gs with
  | Except.error e => Except.error e
  | Except.ok c => Except.ok (c, decide (c.length < 1))

/-- The `&rst` group written by `NmroptRestraint.WriteRstNamelist`
(`rstr.py` lines 488-496): atoms, the four stored positions multiplied back
by the report conversion, the two force constants, and the weights for a
generalized-distance restraint. -/
def encodeGroup (rst : NmroptRestraint) : NmlGroup :=
  let c := reportConversion rst.kind
  { name := "rst"
    iat := some rst.iat
    rstwt := if rst.kind = RstrKind.genDistCoord then some rst.rstwt else none
    params :=
      { p1 := some (rst.r1 * c), p2 := some (rst.r2 * c),
        p3 := some (rst.r3 * c), p4 := some (rst.r4 * c),
        rk2 := some rst.rk2, rk3 := some rst.rk3 } }

/-- `AmberRestraint.WriteAmberRestraintFile` of `rstr.py` at the level of
named-value groups: one `&rst` group per restraint, in order. -/
def WriteAmberRestraintFile (rs : List NmroptRestraint) : List NmlGroup :=
  rs.map encodeGroup

/-- Well-formedness invariant guaranteed for every restraint produced by
`decodeGroup`: the atom count and weights match the kind, and the stored
positions are monotone. -/
def WFRstr (r : NmroptRestraint) : Prop :=
  (match r.kind with
   | RstrKind.bond => r.iat.length = 2 ∧ r.rstwt = []
   | RstrKind.angle => r.iat.length = 3 ∧ r.rstwt = []
   | RstrKind.torsion => r.iat.length = 4 ∧ r.rstwt = []
   | RstrKind.genDistCoord =>
       r.iat.length % 2 = 0 ∧ r.rstwt.length = r.iat.length / 2) ∧
  monoPositions (r.r1, r.r2, r.r3, r.r4)

/-- A successfully constructed restraint carries the requested kind, atoms
and weights, and monotone positions. -/
theorem mk_ok_spec {k : RstrKind} {iat : List ℤ} {w : List ℚ} {p : SetParams}
    {r : NmroptRestraint} (h : mkNmroptRestraint k iat w p = Except.ok r) :
    r.kind = k ∧ r.iat = iat ∧ r.rstwt = w ∧
      monoPositions (r.r1, r.r2, r.r3, r.r4) := by
  unfold mkNmroptRestraint SetRestraintParameters at h
  by_cases hm : monoPositions (updatedPositions ⟨k, iat, w, 0, 0, 0, 0, 0, 0⟩ p)
  · simp only [if_pos hm] at h
    obtain rfl : _ = r := Except.ok.inj h
    refine ⟨rfl, rfl, rfl, ?_⟩
    simpa using hm
  · simp only [if_neg hm] at h
    exact Except.noConfusion h

end Rstr

namespace Rstr

/-- Every restraint decoded from a group satisfies the well-formedness
invariant. -/
theorem decode_ok_wf {g : NmlGroup} {r : NmroptRestraint}
    (h : decodeGroup g = Except.ok r) : WFRstr r := by
  unfold decodeGroup at h
  split at h
  · exact Except.noConfusion h
  · rename_i iat _
    split at h
    · rename_i w _
      split at h
      · rename_i he
        split at h
        · exact Except.noConfusion h
        · rename_i r' hmk
          split at h
          · rename_i hl
            obtain rfl : r' = r := Except.ok.inj h
            obtain ⟨hk, hi, hww, hm⟩ := mk_ok_spec hmk
            refine ⟨?_, hm⟩
            rw [hk, hi, hww]
            exact ⟨he, hl⟩
          · exact Except.noConfusion h
      · exact Except.noConfusion h
    · split at h
      · rename_i h2
        obtain ⟨hk, hi, hww, hm⟩ := mk_ok_spec h
        refine ⟨?_, hm⟩
        rw [hk, hi, hww]
        exact ⟨h2, rfl⟩
      · split at h
        · rename_i h3
          obtain ⟨hk, hi, hww, hm⟩ := mk_ok_spec h
          refine ⟨?_, hm⟩
          rw [hk, hi, hww]
          exact ⟨h3, rfl⟩
        · split at h
          · rename_i h4
            obtain ⟨hk, hi, hww, hm⟩ := mk_ok_spec h
            refine ⟨?_, hm⟩
            rw [hk, hi, hww]
            exact ⟨h4, rfl⟩
          · exact Except.noConfusion h

/-- Re-decoding the encoded group of a well-formed restraint recovers the
restraint exactly. -/
theorem decode_encode {r : NmroptRestraint} (h : WFRstr r) :
    decodeGroup (encodeGroup r) = Except.ok r := by
  obtain ⟨hkind, hmono⟩ := h
  obtain ⟨k, iat, w, a1, a2, a3, a4, b1, b2⟩ := r
  dsimp only at hmono
  have hc : degPerRad ≠ 0 := ne_of_gt degPerRad_pos
  have hcan : ∀ x : ℚ, x * degPerRad / degPerRad = x := fun x =>
    mul_div_cancel_right₀ x hc
  cases k
  case bond =>
    obtain ⟨hlen, hw⟩ : iat.length = 2 ∧ w = [] := hkind
    subst hw
    simp only [decodeGroup, encodeGroup, reportConversion, hlen, reduceCtorEq,
      if_true, if_false]
    simp only [mkNmroptRestraint, SetRestraintParameters, updatedPositions,
      updatedKs, Option.map_some', Option.getD_some, reportConversion, div_one,
      mul_one]
    rw [if_pos hmono]
  case angle =>
    obtain ⟨hlen, hw⟩ : iat.length = 3 ∧ w = [] := hkind
    subst hw
    simp only [decodeGroup, encodeGroup, reportConversion, hlen, reduceCtorEq,
      show ¬((3 : ℕ) = 2) from by norm_num, if_true, if_false]
    simp only [mkNmroptRestraint, SetRestraintParameters, updatedPositions,
      updatedKs, Option.map_some', Option.getD_some, reportConversion, hcan]
    rw [if_pos hmono]
  case torsion =>
    obtain ⟨hlen, hw⟩ : iat.length = 4 ∧ w = [] := hkind
    subst hw
    simp only [decodeGroup, encodeGroup, reportConversion, hlen, reduceCtorEq,
      show ¬((4 : ℕ) = 2) from by norm_num, show ¬((4 : ℕ) = 3) from by norm_num,
      if_true, if_false]
    simp only [mkNmroptRestraint, SetRestraintParameters, updatedPositions,
      updatedKs, Option.map_some', Option.getD_some, reportConversion, hcan]
    rw [if_pos hmono]
  case genDistCoord =>
    obtain ⟨heven, hwlen⟩ : iat.length % 2 = 0 ∧ w.length = iat.length / 2 := hkind
    simp only [decodeGroup, encodeGroup, reportConversion, heven, hwlen,
      reduceCtorEq, if_true, if_false]
    simp only [mkNmroptRestraint, SetRestraintParameters, updatedPositions,
      updatedKs, Option.map_some', Option.getD_some, reportConversion, div_one,
      mul_one]
    rw [if_pos hmono]

end Rstr

namespace Rstr

/-- Every member of a decoded collection is well-formed. -/
theorem readGroups_wf : ∀ {gs : List NmlGroup} {c : List NmroptRestraint},
    readGroups gs = Except.ok c → ∀ r ∈ c, WFRstr r := by
  intro gs
  induction gs with
  | nil =>
    intro c h r hr
    obtain rfl : ([] : List NmroptRestraint) = c := Except.ok.inj h
    exact absurd hr (List.not_mem_nil r)
  | cons g gs ih =>
    intro c h r hr
    unfold readGroups at h
    split at h
    · split at h
      · exact Except.noConfusion h
      · rename_i r0 hd
        split at h
        · exact Except.noConfusion h
        · rename_i rest hrest
          obtain rfl : r0 :: rest = c := Except.ok.inj h
          rcases List.mem_cons.mp hr with rfl | hmem
          · exact decode_ok_wf hd
          · exact ih hrest r hmem
    · exact ih h r hr

/-- Encoding then re-decoding a well-formed collection recovers it. -/
theorem readGroups_encode : ∀ {c : List NmroptRestraint},
    (∀ r ∈ c, WFRstr r) →
    readGroups (WriteAmberRestraintFile c) = Except.ok c := by
  intro c
  induction c with
  | nil => intro _; rfl
  | cons r rest ih =>
    intro h
    have hr := h r (List.mem_cons_self r rest)
    have hrest : ∀ x ∈ rest, WFRstr x := fun x hx => h x (List.mem_cons_of_mem _ hx)
    simp only [WriteAmberRestraintFile, List.map_cons] at ih ⊢
    unfold readGroups
    rw [if_pos (show (encodeGroup r).name = "rst" from rfl)]
    simp only [decode_encode hr, ih hrest]

/-- Claim C4: writing the collection produced by `ReadAmberRestraintFile`
through `WriteAmberRestraintFile` and decoding the written groups again
yields exactly the same collection (same kind, atoms, positions, force
constants and weights per restraint) and the same warning flag, at the level
of exact field values (independent of floating-point text formatting). -/
theorem claim4_roundtrip {gs : List NmlGroup} {c : List NmroptRestraint} {w : Bool}
    (h : ReadAmberRestraintFile gs = Except.ok (c, w)) :
    ReadAmberRestraintFile (WriteAmberRestraintFile c) = Except.ok (c, w) := by
  unfold ReadAmberRestraintFile at h ⊢
  split at h
  · exact Except.noConfusion h
  · rename_i c' hr
    have h' := Except.ok.inj h
    obtain ⟨rfl, rfl⟩ : c' = c ∧ decide (c'.length < 1) = w := Prod.ext_iff.mp h'
    simp only [readGroups_encode (readGroups_wf hr)]

end Rstr

/-- A concrete one-group restraint file for the C4 witness. -/
def roundtripGroup : Rstr.NmlGroup :=
  ⟨"rst", some [1, 2], none, { r0 := some 1, k0 := some 10 }⟩

/-- Witness for C4: the concrete one-bond file decodes successfully and the
round trip reproduces the decoded collection. -/
theorem claim4_roundtrip_witness :
    Rstr.ReadAmberRestraintFile [roundtripGroup] =
      Except.ok ([bondScenario], false) ∧
    Rstr.ReadAmberRestraintFile (Rstr.WriteAmberRestraintFile [bondScenario]) =
      Except.ok ([bondScenario], false) :=
  have h : Rstr.ReadAmberRestraintFile [roundtripGroup] =
      Except.ok ([bondScenario], false) := by
    norm_num [Rstr.ReadAmberRestraintFile, Rstr.readGroups, Rstr.decodeGroup,
      Rstr.mkNmroptRestraint, Rstr.SetRestraintParameters, Rstr.updatedPositions,
      Rstr.updatedKs, Rstr.monoPositions, Rstr.harmonicR1, Rstr.harmonicR4,
      Rstr.reportConversion, roundtripGroup, bondScenario]
  ⟨h, Rstr.claim4_roundtrip h⟩

namespace ARP

/-- `NmroptRestraint.__init__` of `AmberRestraint.py` (lines 201-225): the
kind is selected by the presence of `rstwt` or the atom count; the `rstwt`
path always fails with a `NameError` because the weight-count check reads
the undefined global `nAtoms` (line 208); otherwise the parameters are
assigned on a zeroed state. -/
def mkNmroptRestraint (iat : List ℤ) (rstwt : Option (List ℚ))
    (p : Rstr.SetParams) : Except String NmroptRestraint :=
  match rstwt with
  | some _ => Except.error "NameError: global name nAtoms is not defined"
  | none =>
    if iat.length = 2 then
      match SetRestraintParameters ⟨RstrKind.bond, iat, none, 0, 0, 0, 0, 0, 0⟩ p with
      | (r, none) => Except.ok r
      | (_, some e) => Except.error e
    else if iat.length = 3 then
      match SetRestraintParameters ⟨RstrKind.angle, iat, none, 0, 0, 0, 0, 0, 0⟩ p with
      | (r, none) => Except.ok r
      | (_, some e) => Except.error e
    else if iat.length = 4 then
      match SetRestraintParameters ⟨RstrKind.torsion, iat, none, 0, 0, 0, 0, 0, 0⟩ p with
      | (r, none) => Except.ok r
      | (_, some e) => Except.error e
    else Except.error "Invalid restraint specification (or not supported yet)."

/-- The group loop of `ReadAmberRestraintFile` of `AmberRestraint.py`
(lines 37-46): every group named `rst` must carry `iat` and is turned into
a restraint. -/
def readGroups : List Rstr.NmlGroup → Except String (List NmroptRestraint)
  | [] => Except.ok []
  | g :: gs =>
    if g.name = "rst" then
      match g.iat with
      | none => Except.error "ERROR! Required key iat is not present."
      | some iat =>
        match mkNmroptRestraint iat g.rstwt g.params with
        | Except.error e => Except.error e
        | Except.ok r =>
          match readGroups gs with
          | Except.error e => Except.error e
          | Except.ok rest => Except.ok (r :: rest)
    else readGroups gs

/-- The exception message of `AmberRestraint.py` line 48. -/
def noRstMsg : String := "No &rst namelists found in file"

/-- `ReadAmberRestraintFile` of `AmberRestraint.py` (lines 22-49): unlike
the `rstr.py` version, a file with zero `&rst` groups RAISES an exception
(line 47-48) instead of returning an empty collection. -/
def ReadAmberRestraintFile (gs : List Rstr.NmlGroup) :
    Except String (List NmroptRestraint) :=
  match readGroups gs with
  | Except.error e => Except.error e
  | Except.ok c => if c.length < 1 then Except.error noRstMsg else Except.ok c

end ARP

/-- Counterexample to C9 as stated: on a file with zero `&rst` groups the
`ReadAmberRestraintFile` of `AmberRestraint.py` raises an exception instead
of returning an empty collection with a warning. -/
theorem claim9_counterexample :
    ARP.ReadAmberRestraintFile [] = Except.error ARP.noRstMsg := rfl

/-- Helper for C9: groups not named `rst` are all skipped by the `rstr.py`
reader. -/
theorem rstr_readGroups_skip (gs : List Rstr.NmlGroup)
    (h : ∀ g ∈ gs, ¬ g.name = "rst") : Rstr.readGroups gs = Except.ok [] := by
  induction gs with
  | nil => rfl
  | cons g gs ih =>
    unfold Rstr.readGroups
    rw [if_neg (h g (List.mem_cons_self g gs))]
    exact ih (fun x hx => h x (List.mem_cons_of_mem _ hx))

/-- Helper for C9: groups not named `rst` are all skipped by the
`AmberRestraint.py` reader as well. -/
theorem arp_readGroups_skip (gs : List Rstr.NmlGroup)
    (h : ∀ g ∈ gs, ¬ g.name = "rst") : ARP.readGroups gs = Except.ok [] := by
  induction gs with
  | nil => rfl
  | cons g gs ih =>
    unfold ARP.readGroups
    rw [if_neg (h g (List.mem_cons_self g gs))]
    exact ih (fun x hx => h x (List.mem_cons_of_mem _ hx))

/-- Claim C9 (amended): on any file with zero recognized `&rst` groups the
`rstr.py` reader returns the empty collection together with the non-fatal
warning flag, while the `AmberRestraint.py` reader raises an exception. -/
theorem claim9_amended (gs : List Rstr.NmlGroup)
    (h : ∀ g ∈ gs, ¬ g.name = "rst") :
    Rstr.ReadAmberRestraintFile gs = Except.ok ([], true) ∧
    ARP.ReadAmberRestraintFile gs = Except.error ARP.noRstMsg := by
  constructor
  · unfold Rstr.ReadAmberRestraintFile
    rw [rstr_readGroups_skip gs h]
    rfl
  · unfold ARP.ReadAmberRestraintFile
    rw [arp_readGroups_skip gs h]
    rfl

/-- Witness for C9 (amended): a file holding a single non-`rst` group. -/
theorem claim9_amended_witness :
    (¬ ("wt" = "rst")) ∧
    Rstr.ReadAmberRestraintFile [⟨"wt", none, none, {}⟩] = Except.ok ([], true) ∧
    ARP.ReadAmberRestraintFile [⟨"wt", none, none, {}⟩] =
      Except.error ARP.noRstMsg :=
  have hn : ∀ g ∈ [(⟨"wt", none, none, {}⟩ : Rstr.NmlGroup)], ¬ g.name = "rst" := by
    intro g hg
    rw [List.mem_singleton.mp hg]
    decide
  ⟨by decide, claim9_amended [⟨"wt", none, none, {}⟩] hn⟩

namespace Rstr

/-- The element scan of `NmroptRestraint.__eq__` over zipped atom lists
(`rstr.py` lines 294-306): the flag is set on every comparison, `False` with
break on a mismatch, and an empty zip leaves the initial flag. -/
def scanEqInt : List (ℤ × ℤ) → Bool → Bool
  | [], s => s
  | (a, b) :: t, _ => if a = b then scanEqInt t true else false

/-- `NmroptRestraint.__eq__` of `rstr.py` (lines 287-317): the other object
must be of the same concrete class, the atom tuples must agree forward or
reversed, and the force constants and positions must agree.  The `rstwt`
weights are NOT compared. -/
def rstrEq (x y : NmroptRestraint) : Bool :=
  if x.kind = y.kind then
    if x.iat.length = y.iat.length then
      if (if scanEqInt (x.iat.zip y.iat) false then true
          else scanEqInt (x.iat.reverse.zip y.iat) false) then
        decide (x.rk2 = y.rk2 ∧ x.rk3 = y.rk3 ∧
          x.r1 = y.r1 ∧ x.r2 = y.r2 ∧ x.r3 = y.r3 ∧ x.r4 = y.r4)
      else false
    else false
  else false

/-- The inner member scan of `AmberRestraint.__eq__` over zipped
permutations (`rstr.py` lines 86-91), with the same flag discipline as
`scanEqInt`. -/
def scanPairsR : List (NmroptRestraint × NmroptRestraint) → Bool → Bool
  | [], s => s
  | (a, b) :: t, _ => if rstrEq a b then scanPairsR t true else false

/-- `AmberRestraint.__eq__` of `rstr.py` (lines 78-94): equal lengths, then
a search over all permutation pairs; the search succeeds only when some
zipped permutation pair is nonempty and member-wise equal, and the `areSame`
flag is never set for empty collections. -/
def amberEq (xs ys : List NmroptRestraint) : Bool :=
  if xs.length = ys.length then
    xs.permutations.any fun pi => ys.permutations.any fun pj =>
      scanPairsR (pi.zip pj) false
  else false

/-- With flag `true` the pair scan is the conjunction over all pairs. -/
theorem scanPairsR_true_eq : ∀ l : List (NmroptRestraint × NmroptRestraint),
    scanPairsR l true = l.all fun p => rstrEq p.1 p.2 := by
  intro l
  induction l with
  | nil => rfl
  | cons p t ih =>
    obtain ⟨a, b⟩ := p
    simp only [scanPairsR, List.all_cons]
    by_cases h : rstrEq a b
    · rw [if_pos h, h, ih, Bool.true_and]
    · rw [if_neg h]
      simp only [Bool.not_eq_true] at h
      rw [h, Bool.false_and]

/-- The pair scan from the initial `False` flag succeeds exactly on a
nonempty list of member-equal pairs. -/
theorem scanPairsR_false_iff (l : List (NmroptRestraint × NmroptRestraint)) :
    scanPairsR l false = true ↔
      l ≠ [] ∧ ∀ p ∈ l, rstrEq p.1 p.2 = true := by
  cases l with
  | nil => simp [scanPairsR]
  | cons p t =>
    obtain ⟨a, b⟩ := p
    simp only [scanPairsR, ne_eq, reduceCtorEq, not_false_iff, true_and]
    by_cases h : rstrEq a b
    · rw [if_pos h, scanPairsR_true_eq]
      simp [List.all_eq_true, h]
    · rw [if_neg h]
      simp only [Bool.false_eq_true, false_iff]
      intro hall
      exact h (hall (a, b) (List.mem_cons_self _ _))

/-- Scanning a list zipped with itself from flag `true` succeeds. -/
theorem scanEqInt_self_true : ∀ l : List ℤ, scanEqInt (l.zip l) true = true := by
  intro l
  induction l with
  | nil => rfl
  | cons a t ih =>
    simp only [List.zip_cons_cons, scanEqInt, if_pos rfl]
    exact ih

/-- Member equality is reflexive for restraints with a nonempty atom
tuple. -/
theorem rstrEq_refl (x : NmroptRestraint) (h : x.iat ≠ []) : rstrEq x x = true := by
  have hscan : scanEqInt (x.iat.zip x.iat) false = true := by
    cases hx : x.iat with
    | nil => exact absurd hx h
    | cons a t =>
      simp only [List.zip_cons_cons, scanEqInt, if_pos rfl]
      exact scanEqInt_self_true t
  simp [rstrEq, hscan]

/-- Characterization of collection equality: true exactly for nonempty
collections of equal length admitting a one-to-one member pairing. -/
theorem amberEq_iff (xs ys : List NmroptRestraint) :
    amberEq xs ys = true ↔
      xs ≠ [] ∧ xs.length = ys.length ∧
        ∃ ys', ys'.Perm ys ∧
          List.Forall₂ (fun a b => rstrEq a b = true) xs ys' := by
  unfold amberEq
  by_cases hlen : xs.length = ys.length
  · rw [if_pos hlen]
    constructor
    · intro h
      obtain ⟨pi, hpi, h⟩ := List.any_eq_true.mp h
      obtain ⟨pj, hpj, h⟩ := List.any_eq_true.mp h
      have hpix : pi.Perm xs := List.mem_permutations.mp hpi
      have hpjy : pj.Perm ys := List.mem_permutations.mp hpj
      obtain ⟨hz, hall⟩ := (scanPairsR_false_iff _).mp h
      have hplen : pi.length = pj.length := by
        rw [hpix.length_eq, hpjy.length_eq, hlen]
      have hfa : List.Forall₂ (fun a b => rstrEq a b = true) pi pj :=
        List.forall₂_iff_zip.mpr ⟨hplen, fun hm => hall _ hm⟩
      have hne : xs ≠ [] := by
        intro hxs
        subst hxs
        have : pi = [] := List.Perm.eq_nil hpix
        subst this
        simp at hz
      obtain ⟨m, hfm, hmp⟩ := List.perm_comp_forall₂ hpix.symm hfa
      exact ⟨hne, hlen, m, hmp.trans hpjy, hfm⟩
    · rintro ⟨hne, -, ys', hperm, hfa⟩
      apply List.any_eq_true.mpr
      refine ⟨xs, List.mem_permutations.mpr (List.Perm.refl xs), ?_⟩
      apply List.any_eq_true.mpr
      refine ⟨ys', List.mem_permutations.mpr hperm, ?_⟩
      apply (scanPairsR_false_iff _).mpr
      refine ⟨?_, fun p hp => List.forall₂_zip hfa hp⟩
      cases hxs : xs with
      | nil => exact absurd hxs hne
      | cons a t =>
        cases hys' : ys' with
        | nil =>
          rw [hxs, hys'] at hfa
          exact absurd hfa (by rintro ⟨⟩)
        | cons b u => simp [hxs, hys']
  · rw [if_neg hlen]
    simp only [Bool.false_eq_true, false_iff]
    rintro ⟨-, h, -⟩
    exact hlen h

end Rstr

/-- A generalized-distance restraint with the same atoms, positions and
force constants as `bondScenario` but a different kind. -/
def genDistTwin : Rstr.NmroptRestraint :=
  ⟨RstrKind.genDistCoord, [1, 2], [1], -499, 1, 1, 501, 10, 10⟩

/-- A second bond restraint, distinct from `bondScenario`. -/
def bondScenario2 : Rstr.NmroptRestraint :=
  ⟨RstrKind.bond, [3, 4], [], -498, 2, 2, 502, 20, 20⟩

/-- Counterexample to C8 as stated: two empty collections compare UNEQUAL
(the search flag is never set), and a Bond and a GeneralizedDistance
restraint with identical atom tuples, positions and force constants also
compare unequal (the claimed pairing condition ignores the kind but
`__eq__` checks the concrete class). -/
theorem claim8_counterexample :
    Rstr.amberEq [] [] = false ∧
    Rstr.amberEq [bondScenario] [genDistTwin] = false ∧
    bondScenario.iat = genDistTwin.iat ∧
    bondScenario.r1 = genDistTwin.r1 ∧ bondScenario.r2 = genDistTwin.r2 ∧
    bondScenario.r3 = genDistTwin.r3 ∧ bondScenario.r4 = genDistTwin.r4 ∧
    bondScenario.rk2 = genDistTwin.rk2 ∧ bondScenario.rk3 = genDistTwin.rk3 := by
  have hkind : Rstr.rstrEq bondScenario genDistTwin = false := by
    norm_num [Rstr.rstrEq, bondScenario, genDistTwin]
    intro hcontra
    exact absurd hcontra (by decide)
  have hempty : Rstr.amberEq [] [] = false := by
    cases h : Rstr.amberEq [] [] with
    | false => rfl
    | true => exact absurd rfl ((Rstr.amberEq_iff [] []).mp h).1
  have hmix : Rstr.amberEq [bondScenario] [genDistTwin] = false := by
    cases h : Rstr.amberEq [bondScenario] [genDistTwin] with
    | false => rfl
    | true =>
      obtain ⟨-, -, ys', hperm, hfa⟩ := (Rstr.amberEq_iff _ _).mp h
      obtain rfl : ys' = [genDistTwin] := List.perm_singleton.mp hperm
      cases hfa with
      | cons hr _ =>
        rw [hkind] at hr
        exact Bool.noConfusion hr
  exact ⟨hempty, hmix, rfl, by norm_num [bondScenario, genDistTwin],
    by norm_num [bondScenario, genDistTwin], by norm_num [bondScenario, genDistTwin],
    by norm_num [bondScenario, genDistTwin], by norm_num [bondScenario, genDistTwin],
    by norm_num [bondScenario, genDistTwin]⟩

/-- Claim C8 (amended): `__eq__` returns `True` exactly for NONEMPTY
collections of equal length admitting a one-to-one pairing of members that
agree in kind (concrete class), atom tuple (forward or reversed), boundary
positions and force constants; any permutation of a nonempty collection
(of restraints with nonempty atom tuples) equals the original, but two
empty collections compare unequal. -/
theorem claim8_amended :
    (∀ xs ys : List Rstr.NmroptRestraint,
      Rstr.amberEq xs ys = true ↔
        xs ≠ [] ∧ xs.length = ys.length ∧
          ∃ ys', ys'.Perm ys ∧
            List.Forall₂ (fun a b => Rstr.rstrEq a b = true) xs ys') ∧
    (∀ xs ys : List Rstr.NmroptRestraint, xs.Perm ys → xs ≠ [] →
      (∀ r ∈ xs, r.iat ≠ []) → Rstr.amberEq xs ys = true) ∧
    Rstr.amberEq [] [] = false := by
  have hempty2 : Rstr.amberEq [] [] = false := by
    cases h : Rstr.amberEq [] [] with
    | false => rfl
    | true => exact absurd rfl ((Rstr.amberEq_iff [] []).mp h).1
  refine ⟨Rstr.amberEq_iff, fun xs ys hperm hne hiat => ?_, hempty2⟩
  apply (Rstr.amberEq_iff xs ys).mpr
  refine ⟨hne, hperm.length_eq, xs, hperm, ?_⟩
  exact List.forall₂_same.mpr fun x hx => Rstr.rstrEq_refl x (hiat x hx)

/-- Witness for C8 (amended): swapping the two members of a two-restraint
collection yields an equal collection. -/
theorem claim8_amended_witness :
    Rstr.amberEq [bondScenario, bondScenario2] [bondScenario2, bondScenario] =
      true :=
  claim8_amended.2.1 [bondScenario, bondScenario2] [bondScenario2, bondScenario]
    (List.Perm.swap bondScenario2 bondScenario [])
    (by simp)
    (by
      intro r hr
      rcases List.mem_cons.mp hr with rfl | hr2
      · simp [bondScenario]
      · rw [List.mem_singleton.mp hr2]
        simp [bondScenario2])
